import Mathlib

/-!
Formal model of the control-dashboard repository: the data-sync service
(src/lib/services/data-sync.ts, a concatenation of the sync service, the
rate-limit middleware, the in-memory rate limiter and the bearer-token auth
check), the two upstream HTTP clients (src/lib/api/perfexcrm-client.ts,
src/lib/api/uchat-client.ts) and the database schema
(src/supabase/migrations/001_initial_schema.sql).

JavaScript numbers that only ever hold counts are modelled as Nat, money and
metric values as Int, timestamps (Date.now()) as Nat milliseconds, and JSON
payloads that the code passes through verbatim as dedicated structures.
Fallible upstream calls are modelled as Except values; the axios machinery
itself is not modelled, only the retry wrapper and the data flow that the
sync service observes.
-/

/-! ## String helpers (JS semantics used by the code) -/

/-- Pattern matches at the head of the character list (pattern is a prefix). -/
def matchesAt : List Char → List Char → Bool
  | [], _ => true
  | _ :: _, [] => false
  | p :: ps, c :: cs => p = c && matchesAt ps cs

/-- Some suffix of the character list starts with the pattern. -/
def hasSubList (pat : List Char) : List Char → Bool
  | [] => matchesAt pat []
  | c :: cs => matchesAt pat (c :: cs) || hasSubList pat cs

/-- JS String.prototype.includes: the pattern occurs somewhere in the string. -/
def strContainsSub (s pat : String) : Bool :=
  hasSubList pat.toList s.toList

/-- Remove the first occurrence of the pattern from the character list, as JS
String.prototype.replace(pat, "") with a string pattern does: only the first
occurrence is replaced; if the pattern does not occur the string is returned
unchanged. -/
def removeFirstSub (pat : List Char) : List Char → List Char
  | [] => []
  | c :: cs =>
    if matchesAt pat (c :: cs) then (c :: cs).drop pat.length
    else c :: removeFirstSub pat cs

/-- Token extraction in verifyAuth: authHeader.replace("Bearer ", ""). -/
def extractToken (h : String) : String :=
  String.mk (removeFirstSub "Bearer ".toList h.toList)

/-- JS String.prototype.toLowerCase, character by character (every string the
code lowercases is ASCII). -/
def strToLower (s : String) : String :=
  String.mk (s.toList.map Char.toLower)

/-- The characters before the first comma: JS s.split(",")[0]. -/
def takeUntilComma : List Char → List Char
  | [] => []
  | c :: cs => if c = ',' then [] else c :: takeUntilComma cs

/-- JS String.prototype.trim: strip leading and trailing whitespace. -/
def trimChars (l : List Char) : List Char :=
  ((l.dropWhile Char.isWhitespace).reverse.dropWhile Char.isWhitespace).reverse

/-- forwarded.split(",")[0].trim() on a non-empty x-forwarded-for value. -/
def firstForwardedIp (f : String) : String :=
  String.mk (trimChars (takeUntilComma f.toList))

/-! ## Upstream HTTP client retry logic
(PerfexCRMClient.retryRequest / UchatClient.retryRequest; the two classes
share the same code, field for field). -/

/-- PerfexCRMClient.retryDelay = UchatClient.retryDelay = 1000 ms. -/
def retryDelay : Nat := 1000

/-- PerfexCRMClient.maxRetries = UchatClient.maxRetries = 3. -/
def maxRetries : Nat := 3

/-- isRetryableError: the lowercased error message contains "timeout",
"network" or "server error". -/
def isRetryableError (msg : String) : Bool :=
  let m := strToLower msg
  strContainsSub m "timeout" || strContainsSub m "network" ||
    strContainsSub m "server error"

/-- retryRequest. The underlying request is modelled as a function from the
attempt index to an outcome (so each attempt may behave differently, as the
real request function may). The result records the final outcome, the number
of times the request function was invoked, and the list of delays (in ms)
waited before each retry. The code waits this.retryDelay before every retry
and recurses with retries - 1; the recursion is on the retries budget, so it
is structurally terminating exactly as the source terminates. -/
def retryRequest {α : Type} (req : Nat → Except String α) :
    Nat → Nat → Except String α × Nat × List Nat
  | 0, k =>
    match req k with
    | .ok a => (.ok a, 1, [])
    | .error e => (.error e, 1, [])
  | r + 1, k =>
    match req k with
    | .ok a => (.ok a, 1, [])
    | .error e =>
      if isRetryableError e then
        let out := retryRequest req r (k + 1)
        (out.1, out.2.1 + 1, retryDelay :: out.2.2)
      else (.error e, 1, [])

/-- A request that fails every attempt with a retryable timeout message. -/
def alwaysTimeout : Nat → Except String Nat := fun _ => .error "timeout"

/-- The delays the claim speaks about: what a maximally failing request waits
between attempts under the default retry budget. -/
def perfexRetryDelays : List Nat := (retryRequest alwaysTimeout maxRetries 0).2.2

/-- Modelled from the spec: "the delay waited before the k-th retry grows
exponentially with k". Growth in k entails in particular that each successive
retry waits strictly longer than the one before; this is the weakest reading
of the spec sentence, so refuting it refutes every reading. -/
def delaysGrowExponentially (ds : List Nat) : Prop :=
  ∀ i : Nat, (h : i + 1 < ds.length) →
    ds.get ⟨i, Nat.lt_of_succ_lt h⟩ < ds.get ⟨i + 1, h⟩

/-! ## Rate limiter (rate-limit.ts section of data-sync.ts) -/

/-- One entry of the in-memory store: { count, resetTime }. -/
structure RLEntry where
  count : Nat
  resetTime : Nat
deriving DecidableEq

/-- The module state: the in-memory store keyed by identifier (a JS object,
so one entry per key) plus the lastCleanup timestamp. -/
structure RLState where
  store : String → Option RLEntry
  lastCleanup : Nat

/-- CLEANUP_INTERVAL = 60000 ms. -/
def CLEANUP_INTERVAL : Nat := 60000

/-- cleanupExpiredEntries: a no-op when less than CLEANUP_INTERVAL has
elapsed since lastCleanup; otherwise deletes every entry whose resetTime is
strictly in the past and records the sweep time. Nat subtraction agrees with
the JS comparison: when lastCleanup is in the future the difference is
negative in JS and 0 here, and both branches then skip the sweep. -/
def cleanupExpiredEntries (now : Nat) (s : RLState) : RLState :=
  if now - s.lastCleanup < CLEANUP_INTERVAL then s
  else
    { store := fun k =>
        match s.store k with
        | some e => if e.resetTime < now then none else some e
        | none => none,
      lastCleanup := now }

/-- RateLimitResult as returned to callers. remaining is
Math.max(0, maxRequests - count), which truncated Nat subtraction computes
exactly; retryAfter is Math.ceil((resetTime - now) / 1000). -/
structure RateLimitResult where
  success : Bool
  limit : Nat
  remaining : Nat
  reset : Nat
  retryAfter : Option Nat
deriving DecidableEq

/-- The entry rateLimit works on: a missing or expired stored entry is
replaced by { count: 0, resetTime: now + windowMs }, and the count is then
incremented (so a fresh entry ends at count 1, an existing one at
count + 1). -/
def nextEntry (windowMs now : Nat) : Option RLEntry → RLEntry
  | some e =>
    if e.resetTime < now then ⟨1, now + windowMs⟩ else ⟨e.count + 1, e.resetTime⟩
  | none => ⟨1, now + windowMs⟩

/-- rateLimit(identifier, { windowMs, maxRequests }) at time now. The code
first sweeps, then updates the entry for the identifier. -/
def rateLimit (identifier : String) (windowMs maxRequests now : Nat)
    (s0 : RLState) : RateLimitResult × RLState :=
  let s := cleanupExpiredEntries now s0
  let entry : RLEntry := nextEntry windowMs now (s.store identifier)
  let success := decide (entry.count ≤ maxRequests)
  (⟨success, maxRequests, maxRequests - entry.count, entry.resetTime,
      if success then none else some ((entry.resetTime - now + 999) / 1000)⟩,
    { store := fun k => if k = identifier then some entry else s.store k,
      lastCleanup := s.lastCleanup })

/-- A sequence of rateLimit calls for one identifier at the given timestamps,
returning the list of per-call results and the final state. -/
def rlCalls (identifier : String) (windowMs maxRequests : Nat) :
    RLState → List Nat → List RateLimitResult × RLState
  | s, [] => ([], s)
  | s, t :: ts =>
    let step := rateLimit identifier windowMs maxRequests t s
    let rest := rlCalls identifier windowMs maxRequests step.2 ts
    (step.1 :: rest.1, rest.2)

/-- IP extraction in getRateLimitIdentifier: the first comma-separated piece
of x-forwarded-for, trimmed; else x-real-ip; else "unknown". A present but
empty header string is falsy in JS and is treated like an absent one. -/
def clientIp (xForwardedFor xRealIp : Option String) : String :=
  match xForwardedFor with
  | some f =>
    if f = "" then
      match xRealIp with
      | some r => if r = "" then "unknown" else r
      | none => "unknown"
    else firstForwardedIp f
  | none =>
    match xRealIp with
    | some r => if r = "" then "unknown" else r
    | none => "unknown"

/-- getRateLimitIdentifier: "user:" ++ userId when a (truthy, hence
non-empty) user id is supplied, else "ip:" ++ the extracted client IP. -/
def getRateLimitIdentifier (xForwardedFor xRealIp : Option String)
    (userId : Option String) : String :=
  match userId with
  | some uid => if uid = "" then "ip:" ++ clientIp xForwardedFor xRealIp else "user:" ++ uid
  | none => "ip:" ++ clientIp xForwardedFor xRealIp

/-- The empty rate-limiter store, as at module load. -/
def emptyRL : RLState := { store := fun _ => none, lastCleanup := 0 }

/-- A concrete store holding one entry, used to instantiate theorems. -/
def rlOneEntry : RLState :=
  { store := fun k => if k = "ip:9.9.9.9" then some ⟨5, 100⟩ else none,
    lastCleanup := 0 }

/-! ## Bearer-token auth check (verify-auth.ts section of data-sync.ts) -/

/-- The Supabase auth user: email is string | undefined on the supabase
User type, id is a string. -/
structure AuthUser where
  email : Option String
  id : String
deriving DecidableEq

/-- Outcome of supabase.auth.getUser(token): a user, an auth error or null
user ("Invalid token"), or a rejected promise caught by the surrounding
try/catch. -/
inductive TokenOutcome where
  | ok (u : AuthUser)
  | invalid
  | thrown
deriving DecidableEq

/-- One row of the authorized_accounts table (email is UNIQUE in the
schema; is_active defaults to true). -/
structure Account where
  email : String
  is_active : Bool
deriving DecidableEq

/-- The environment verifyAuth runs in: the two NEXT_PUBLIC_SUPABASE env
vars ("" models an unset variable; JS tests both with falsiness), the auth
provider, and the authorized_accounts table contents. -/
structure AuthEnv where
  supabaseUrl : String
  supabaseAnonKey : String
  resolveToken : String → TokenOutcome
  accounts : List Account

/-- AuthResult as returned by verifyAuth. -/
structure AuthResult where
  authorized : Bool
  user : Option AuthUser
  error : Option String
deriving DecidableEq

/-- The single hard-coded allow-listed email. -/
def AUTHORIZED_EMAIL : String := "info@intercambioinmobiliario.com"

/-- No emails repeat in the accounts table (the schema declares email
UNIQUE, and .single() in the code relies on it). -/
def noDupEmails : List Account → Bool
  | [] => true
  | a :: rest => !rest.any (fun b => b.email == a.email) && noDupEmails rest

/-- verifyAuth. The header is Option String (headers.get returns null for a
missing header); a present empty header is falsy and takes the
no-authorization-header branch. The database check is
.eq("email", user.email).eq("is_active", true).single(): it succeeds exactly
when the filtered row set is a singleton. -/
def verifyAuth (env : AuthEnv) (authHeader : Option String) : AuthResult :=
  match authHeader with
  | none => ⟨false, none, some "No authorization header"⟩
  | some h =>
    if h = "" then ⟨false, none, some "No authorization header"⟩
    else
      let token := extractToken h
      if env.supabaseUrl = "" ∨ env.supabaseAnonKey = "" then
        ⟨false, none, some "Supabase configuration missing"⟩
      else
        match env.resolveToken token with
        | .thrown => ⟨false, none, some "Internal server error"⟩
        | .invalid => ⟨false, none, some "Invalid token"⟩
        | .ok u =>
          match u.email with
          | none => ⟨false, none, some "Account not authorized"⟩
          | some em =>
            if strToLower em ≠ strToLower AUTHORIZED_EMAIL then
              ⟨false, none, some "Account not authorized"⟩
            else
              match env.accounts.filter (fun a => a.email == em && a.is_active) with
              | [_] => ⟨true, some ⟨some em, u.id⟩, none⟩
              | _ => ⟨false, none, some "Account not authorized"⟩

/-- A concrete environment in which everything needed for authorization is
in place except that the Supabase configuration env vars are unset. -/
def authEnvNoConfig : AuthEnv :=
  { supabaseUrl := ""
    supabaseAnonKey := ""
    resolveToken := fun t =>
      if t = "tok123" then .ok ⟨some AUTHORIZED_EMAIL, "uid-1"⟩ else .invalid
    accounts := [⟨AUTHORIZED_EMAIL, true⟩] }

/-- A concrete fully configured environment. -/
def authEnvGood : AuthEnv :=
  { supabaseUrl := "https://proj.supabase.co"
    supabaseAnonKey := "anon"
    resolveToken := fun t =>
      if t = "tok123" then .ok ⟨some AUTHORIZED_EMAIL, "uid-1"⟩ else .invalid
    accounts := [⟨AUTHORIZED_EMAIL, true⟩] }

/-! ## Database model
(src/supabase/migrations/001_initial_schema.sql). The two metrics tables
carry UNIQUE(metric_type, metric_key, metric_date) after the daily-metrics
migration; aggregated_insights carries UNIQUE(insight_type, insight_key,
source) and has no date column. -/

/-- A fetched PerfexCRM statistics payload; the sync service stores it
verbatim without looking inside. -/
structure PStats where
  raw : String
deriving DecidableEq

/-- PerfexCRMCustomer (src/types/api.ts); only identity matters to the sync
service, which stores the fetched objects verbatim and counts them. -/
structure Customer where
  id : String
deriving DecidableEq

/-- PerfexCRMInvoice. total is number in the TS type but the code guards
with inv.total || 0, so a missing value is modelled as none; for an Int
value v, v || 0 in JS equals v (0 is falsy and the fallback is 0), so
Option.getD models the guard exactly. -/
structure Invoice where
  id : String
  total : Option Int
deriving DecidableEq

/-- PerfexCRMLead. -/
structure Lead where
  id : String
deriving DecidableEq

/-- UchatChat; the sync service counts these and stores them verbatim. -/
structure Chat where
  id : String
  status : String
deriving DecidableEq

/-- The record UchatClient.getStatistics returns (all fields numeric). -/
structure UStats where
  total_chats : Int
  active_chats : Int
  average_response_time : Int
  satisfaction_score : Int
  new_users_today : Int
  total_messages_today : Int
  incoming_messages : Int
  agent_messages : Int
  assigned_today : Int
  resolved_today : Int
  avg_resolve_time : Int
  emails_sent : Int
  emails_opened : Int
  number_of_opens : Int
deriving DecidableEq

/-- JS x || y on the Int-valued statistics fields: 0 is falsy. -/
def jsOr (x y : Int) : Int := if x = 0 then y else x

/-- The metric_value JSONB payloads the sync service writes. -/
inductive MVal where
  | statsP (v : PStats)
  | countCustomers (count : Nat) (data : List Customer)
  | invoiceSummary (count : Nat) (total_revenue : Int) (data : List Invoice)
  | countLeads (count : Nat) (data : List Lead)
  | statsU (v : UStats)
  | chatsData (count : Nat) (data : List Chat)
deriving DecidableEq

/-- A row of perfexcrm_metrics or uchat_metrics (the generated id and the
timestamps are not modelled; the upsert key never includes them). -/
structure MetricRow where
  metric_type : String
  metric_key : String
  metric_date : String
  metric_value : MVal
deriving DecidableEq

/-- The sales_summary insight payload written by syncPerfexCRM. -/
structure SalesSummaryV where
  total_customers : Nat
  total_invoices : Nat
  total_revenue : Int
  total_leads : Nat
  updated_at : String
deriving DecidableEq

/-- The chat_summary insight payload written by syncUchat. -/
structure ChatSummary where
  total_chats : Int
  active_chats : Int
  average_response_time : Int
  satisfaction_score : Int
  new_users_today : Int
  total_messages_today : Int
  incoming_messages : Int
  agent_messages : Int
  assigned_today : Int
  resolved_today : Int
  avg_resolve_time : Int
  emails_sent : Int
  emails_opened : Int
  updated_at : String
deriving DecidableEq

/-- insight_value payloads. combinedV pv uv now stands for the JS object
spread { ...pv, ...uv, updated_at: now }; the field names of the sales and
chat payloads are disjoint, so the pair of source objects plus the fresh
timestamp determines the merged object exactly. -/
inductive IVal where
  | sales (v : SalesSummaryV)
  | chat (v : ChatSummary)
  | combinedV (perfexVal uchatVal : IVal) (updated_at : String)
deriving DecidableEq

/-- A row of aggregated_insights. There is no date column. -/
structure InsightRow where
  insight_type : String
  insight_key : String
  insight_value : IVal
  source : String
deriving DecidableEq

/-- The three tables the sync service writes. -/
structure DB where
  perfexcrm_metrics : List MetricRow
  uchat_metrics : List MetricRow
  aggregated_insights : List InsightRow
deriving DecidableEq

/-- Two metric rows agree on the upsert key (metric_type, metric_key,
metric_date). -/
def sameMetricKey (a b : MetricRow) : Bool :=
  a.metric_type == b.metric_type && a.metric_key == b.metric_key &&
    a.metric_date == b.metric_date

/-- Two insight rows agree on the UNIQUE constraint triple (insight_type,
insight_key, source). -/
def sameInsightKey (a b : InsightRow) : Bool :=
  a.insight_type == b.insight_type && a.insight_key == b.insight_key &&
    a.source == b.source

/-- upsert with onConflict: "metric_type,metric_key,metric_date", as both
metrics-table writes pass it: INSERT ... ON CONFLICT (triple) DO UPDATE.
The unique constraint guarantees at most one conflicting row; the model
updates the first matching row and otherwise appends. -/
def upsertMetric : List MetricRow → MetricRow → List MetricRow
  | [], r => [r]
  | x :: xs, r =>
    if sameMetricKey r x then r :: xs else x :: upsertMetric xs r

/-- The aggregated_insights upserts pass no onConflict option. The PostgREST
default conflict target is then the primary key id, and the inserted record
carries no id (a fresh uuid is generated), so the statement is effectively a
plain INSERT against UNIQUE(insight_type, insight_key, source): when a row
with the same triple already exists, the insert fails with a unique
violation that supabase-js returns as an error value, which this code never
checks. The net effect modelled here: insert when the triple is new,
otherwise keep the existing row. -/
def upsertInsight : List InsightRow → InsightRow → List InsightRow
  | [], r => [r]
  | x :: xs, r =>
    if sameInsightKey r x then x :: xs else x :: upsertInsight xs r

/-- No two rows of a metrics table agree on the key triple (the UNIQUE
constraint of the schema). -/
def noDupKeys : List MetricRow → Bool
  | [] => true
  | r :: rs => !rs.any (sameMetricKey r) && noDupKeys rs

/-- One database write issued by the sync service. -/
inductive WriteOp where
  | pmetric (r : MetricRow)
  | umetric (r : MetricRow)
  | insight (r : InsightRow)
deriving DecidableEq

/-- Apply a write to the database. -/
def applyWrite (db : DB) (w : WriteOp) : DB :=
  match w with
  | .pmetric r => { db with perfexcrm_metrics := upsertMetric db.perfexcrm_metrics r }
  | .umetric r => { db with uchat_metrics := upsertMetric db.uchat_metrics r }
  | .insight r => { db with aggregated_insights := upsertInsight db.aggregated_insights r }

/-- A write whose round trip fails leaves the database unchanged; the code
ignores the returned error either way (ok is the outcome of the write). -/
def applyIf (ok : Bool) (db : DB) (w : WriteOp) : DB :=
  if ok then applyWrite db w else db

/-! ## Sync service (DataSyncService in data-sync.ts, daily-metrics
version, lines 30-274 of the concatenated file) -/

/-- perfexcrmConfig / uchatConfig: env-provided URL and key; an unset env
var is "" (the code applies || "") and the guard tests falsiness, so ""
means missing. -/
structure ApiConfig where
  apiUrl : String
  apiKey : String
deriving DecidableEq

/-- SyncResult (the timestamp string is not modelled; no claim mentions
it). -/
structure SyncResult where
  success : Bool
  source : String
  error : Option String
deriving DecidableEq

/-- The four upstream fetches syncPerfexCRM performs, each of which may
throw (all PerfexCRMClient getters rethrow when every endpoint variant
fails). -/
structure PerfexFetch where
  statistics : Except String PStats
  customers : Except String (List Customer)
  invoices : Except String (List Invoice)
  leads : Except String (List Lead)

/-- The revenue aggregate: invoices.reduce((sum, inv) => sum + (inv.total || 0), 0). -/
def totalRevenueOf (invoices : List Invoice) : Int :=
  invoices.foldl (fun sum inv => sum + inv.total.getD 0) 0

/-- syncPerfexCRM. Arguments beyond the code's own state: the fetch
outcomes, today (the YYYY-MM-DD date string), nowIso (the ISO timestamp
written into updated_at), the per-write round-trip outcomes wr (the code
awaits each upsert but never reads its error result), and the database.
Returns the SyncResult, the database after the writes that succeeded, and
the trace of write requests issued in order. The first thrown fetch aborts
the remaining steps via the surrounding try/catch. -/
def syncPerfexCRM (cfg : ApiConfig) (f : PerfexFetch) (today nowIso : String)
    (wr : Nat → Bool) (db : DB) : SyncResult × DB × List WriteOp :=
  if cfg.apiUrl = "" ∨ cfg.apiKey = "" then
    (⟨false, "perfexcrm", some "PerfexCRM API configuration is missing"⟩, db, [])
  else
    match f.statistics with
    | .error e => (⟨false, "perfexcrm", some e⟩, db, [])
    | .ok stats =>
      let w0 : WriteOp := .pmetric ⟨"statistics", "dashboard", today, .statsP stats⟩
      let db0 := applyIf (wr 0) db w0
      match f.customers with
      | .error e => (⟨false, "perfexcrm", some e⟩, db0, [w0])
      | .ok customers =>
        let w1 : WriteOp :=
          .pmetric ⟨"customers", "total", today, .countCustomers customers.length customers⟩
        let db1 := applyIf (wr 1) db0 w1
        match f.invoices with
        | .error e => (⟨false, "perfexcrm", some e⟩, db1, [w0, w1])
        | .ok invoices =>
          let w2 : WriteOp :=
            .pmetric ⟨"invoices", "summary", today,
              .invoiceSummary invoices.length (totalRevenueOf invoices) invoices⟩
          let db2 := applyIf (wr 2) db1 w2
          match f.leads with
          | .error e => (⟨false, "perfexcrm", some e⟩, db2, [w0, w1, w2])
          | .ok leads =>
            let w3 : WriteOp :=
              .pmetric ⟨"leads", "total", today, .countLeads leads.length leads⟩
            let db3 := applyIf (wr 3) db2 w3
            let w4 : WriteOp :=
              .insight ⟨"sales_summary", "perfexcrm",
                .sales ⟨customers.length, invoices.length, totalRevenueOf invoices,
                  leads.length, nowIso⟩,
                "perfexcrm"⟩
            let db4 := applyIf (wr 4) db3 w4
            (⟨true, "perfexcrm", none⟩, db4, [w0, w1, w2, w3, w4])

/-- Parameters of UchatClient.getChats. -/
structure GetChatsParams where
  limit : Option Nat
  offset : Option Nat
  status : Option String
deriving DecidableEq

/-- UchatClient.getChats: Uchat has no /chats endpoint, so the method logs a
warning and returns [] immediately. The second component is the list of HTTP
endpoints requested, which is empty: no request is issued. -/
def UchatClient.getChats (_params : GetChatsParams) : List Chat × List String :=
  ([], [])

/-- The chat_summary insight payload syncUchat builds from the statistics
record and the fetched chats (lines 197-212): total_chats and active_chats
fall back to the respective list lengths when the statistics field is falsy,
average_response_time and satisfaction_score are taken as is, and all the
extra statistics fields are guarded with || 0. -/
def mkChatSummary (stats : UStats) (activeChats allChats : List Chat)
    (nowIso : String) : ChatSummary :=
  { total_chats := jsOr stats.total_chats (Int.ofNat allChats.length)
    active_chats := jsOr stats.active_chats (Int.ofNat activeChats.length)
    average_response_time := stats.average_response_time
    satisfaction_score := stats.satisfaction_score
    new_users_today := jsOr stats.new_users_today 0
    total_messages_today := jsOr stats.total_messages_today 0
    incoming_messages := jsOr stats.incoming_messages 0
    agent_messages := jsOr stats.agent_messages 0
    assigned_today := jsOr stats.assigned_today 0
    resolved_today := jsOr stats.resolved_today 0
    avg_resolve_time := jsOr stats.avg_resolve_time 0
    emails_sent := jsOr stats.emails_sent 0
    emails_opened := jsOr stats.emails_opened 0
    updated_at := nowIso }

/-- syncUchat. UchatClient.getStatistics and getActiveChats catch every
upstream failure internally (getStatistics falls back to zeroed statistics,
getActiveChats to []), so their results are plain values and nothing in the
try block can throw; stats and activeChats are those results. allChats comes
from the modelled getChats. -/
def syncUchat (cfg : ApiConfig) (stats : UStats) (activeChats : List Chat)
    (today nowIso : String) (wr : Nat → Bool) (db : DB) :
    SyncResult × DB × List WriteOp :=
  if cfg.apiUrl = "" ∨ cfg.apiKey = "" then
    (⟨false, "uchat", some "Uchat API configuration is missing"⟩, db, [])
  else
    let w0 : WriteOp := .umetric ⟨"statistics", "dashboard", today, .statsU stats⟩
    let db0 := applyIf (wr 0) db w0
    let w1 : WriteOp :=
      .umetric ⟨"chats", "active", today, .chatsData activeChats.length activeChats⟩
    let db1 := applyIf (wr 1) db0 w1
    let allChats := (UchatClient.getChats ⟨some 1000, none, none⟩).1
    let w2 : WriteOp :=
      .umetric ⟨"chats", "total", today, .chatsData allChats.length allChats⟩
    let db2 := applyIf (wr 2) db1 w2
    let w3 : WriteOp :=
      .insight ⟨"chat_summary", "uchat",
        .chat (mkChatSummary stats activeChats allChats nowIso), "uchat"⟩
    let db3 := applyIf (wr 3) db2 w3
    (⟨true, "uchat", none⟩, db3, [w0, w1, w2, w3])

/-- .select().eq("source", src).eq("insight_type", ty).single(): the data is
the row when the filter yields exactly one row, else null (single() reports
an error, which the caller turns into a null check). -/
def dbSingleInsight (t : List InsightRow) (src ty : String) : Option InsightRow :=
  match t.filter (fun x => x.source == src && x.insight_type == ty) with
  | [x] => some x
  | _ => none

/-- syncAll: both syncs run under Promise.all; every write of one targets a
table or key no write of the other touches, so all interleavings produce the
same tables and the model serializes PerfexCRM before Uchat. When both
succeed, the two stored insight rows are read back and, when both reads
yield a row, their payloads are spread into a combined_summary row (cwr is
the round-trip outcome of that write). -/
def syncAll (pcfg ucfg : ApiConfig) (pf : PerfexFetch) (ustats : UStats)
    (uactive : List Chat) (today nowIso : String) (pwr uwr : Nat → Bool)
    (cwr : Bool) (db : DB) :
    (SyncResult × SyncResult) × DB × List WriteOp :=
  let p := syncPerfexCRM pcfg pf today nowIso pwr db
  let u := syncUchat ucfg ustats uactive today nowIso uwr p.2.1
  let db2 := u.2.1
  if p.1.success && u.1.success then
    match dbSingleInsight db2.aggregated_insights "perfexcrm" "sales_summary",
        dbSingleInsight db2.aggregated_insights "uchat" "chat_summary" with
    | some prow, some urow =>
      let wc : WriteOp :=
        .insight ⟨"combined_summary", "dashboard",
          .combinedV prow.insight_value urow.insight_value nowIso, "combined"⟩
      ((p.1, u.1), applyIf cwr db2 wc, p.2.2 ++ u.2.2 ++ [wc])
    | _, _ => ((p.1, u.1), db2, p.2.2 ++ u.2.2)
  else ((p.1, u.1), db2, p.2.2 ++ u.2.2)

/-! ## Concrete fixtures used to instantiate the theorems -/

/-- All write round trips succeed. -/
def wrAll : Nat → Bool := fun _ => true

/-- No write round trip succeeds. -/
def wrNone : Nat → Bool := fun _ => false

/-- A present API configuration. -/
def cfgGood : ApiConfig := ⟨"https://crm.example.com", "key-1"⟩

/-- A fetch outcome set in which every PerfexCRM fetch succeeds with small
concrete data. -/
def pfGood : PerfexFetch :=
  { statistics := .ok ⟨"stats-blob"⟩
    customers := .ok [⟨"c1"⟩, ⟨"c2"⟩]
    invoices := .ok [⟨"i1", some 150⟩, ⟨"i2", none⟩]
    leads := .ok [⟨"l1"⟩] }

/-- Zeroed Uchat statistics (what getStatistics returns when everything
upstream fails). -/
def ustatsZero : UStats := ⟨0, 0, 0, 0, 0, 0, 0, 0, 0, 0, 0, 0, 0, 0⟩

/-- The empty database. -/
def dbEmpty : DB := ⟨[], [], []⟩

/-- The database after one successful PerfexCRM sync on 2025-01-01. -/
def dbAfterRun1 : DB :=
  (syncPerfexCRM cfgGood pfGood "2025-01-01" "t1" wrAll dbEmpty).2.1

/-- The database after a second successful PerfexCRM sync, one day later,
with identical upstream data. -/
def dbAfterRun2 : DB :=
  (syncPerfexCRM cfgGood pfGood "2025-01-02" "t2" wrAll dbAfterRun1).2.1

/-! # Theorems -/

/-! ## Retry logic: shared characterization -/

/-- Full characterization of retryRequest: at least one and at most
retries + 1 invocations; every attempt before the last failed with a
retryable error; the returned outcome is the outcome of the last attempt;
an error outcome means either the budget was exhausted or the error is not
retryable; every delay is retryDelay; one delay per retry. -/
theorem retryRequest_spec {α : Type} (req : Nat → Except String α)
    (retries k : Nat) :
    1 ≤ (retryRequest req retries k).2.1 ∧
    (retryRequest req retries k).2.1 ≤ retries + 1 ∧
    (∀ i, i + 1 < (retryRequest req retries k).2.1 →
      ∃ e, req (k + i) = .error e ∧ isRetryableError e = true) ∧
    (retryRequest req retries k).1 = req (k + ((retryRequest req retries k).2.1 - 1)) ∧
    (∀ e, (retryRequest req retries k).1 = .error e →
      ((retryRequest req retries k).2.1 = retries + 1 ∨ isRetryableError e = false)) ∧
    (∀ d ∈ (retryRequest req retries k).2.2, d = retryDelay) ∧
    (retryRequest req retries k).2.2.length + 1 = (retryRequest req retries k).2.1 := by
  induction retries generalizing k with
  | zero =>
    cases hreq : req k with
    | ok a =>
      have hunf : retryRequest req 0 k = (.ok a, 1, []) := by
        simp [retryRequest, hreq]
      rw [hunf]
      refine ⟨Nat.le_refl 1, Nat.le_refl 1, ?_, by simp [hreq], ?_, ?_, rfl⟩
      · intro i hi
        exact absurd hi (by simp)
      · intro e he
        exact absurd he (by simp)
      · intro d hd
        exact absurd hd (by simp)
    | error e =>
      have hunf : retryRequest req 0 k = (.error e, 1, []) := by
        simp [retryRequest, hreq]
      rw [hunf]
      refine ⟨Nat.le_refl 1, Nat.le_refl 1, ?_, by simp [hreq], ?_, ?_, rfl⟩
      · intro i hi
        exact absurd hi (by simp)
      · intro e' _
        exact Or.inl rfl
      · intro d hd
        exact absurd hd (by simp)
  | succ r ih =>
    cases hreq : req k with
    | ok a =>
      have hunf : retryRequest req (r + 1) k = (.ok a, 1, []) := by
        simp [retryRequest, hreq]
      rw [hunf]
      refine ⟨Nat.le_refl 1, Nat.le_add_left 1 (r + 1), ?_, by simp [hreq], ?_, ?_, rfl⟩
      · intro i hi
        exact absurd hi (by simp)
      · intro e he
        exact absurd he (by simp)
      · intro d hd
        exact absurd hd (by simp)
    | error e =>
      by_cases hre : isRetryableError e = true
      · obtain ⟨ih1, ih2, ih3, ih4, ih5, ih6, ih7⟩ := ih (k + 1)
        have hunf : retryRequest req (r + 1) k =
            ((retryRequest req r (k + 1)).1,
             (retryRequest req r (k + 1)).2.1 + 1,
             retryDelay :: (retryRequest req r (k + 1)).2.2) := by
          simp [retryRequest, hreq, hre]
        rw [hunf]
        dsimp only
        refine ⟨Nat.le_add_left 1 _, by omega, ?_, ?_, ?_, ?_, by simpa using ih7⟩
        · intro i hi
          cases i with
          | zero => exact ⟨e, by simpa using hreq, hre⟩
          | succ j =>
            obtain ⟨e', he', hre'⟩ := ih3 j (by omega)
            exact ⟨e', by rw [show k + (j + 1) = k + 1 + j by omega]; exact he', hre'⟩
        · rw [ih4]
          congr 1
          omega
        · intro e' he'
          rcases ih5 e' he' with h | h
          · left; omega
          · right; exact h
        · intro d hd
          simp only [List.mem_cons] at hd
          rcases hd with rfl | hd
          · rfl
          · exact ih6 d hd
      · have hunf : retryRequest req (r + 1) k = (.error e, 1, []) := by
          simp [retryRequest, hreq, hre]
        rw [hunf]
        refine ⟨Nat.le_refl 1, Nat.le_add_left 1 (r + 1), ?_, by simp [hreq], ?_, ?_, rfl⟩
        · intro i hi
          exact absurd hi (by simp)
        · intro e' he'
          right
          simp only [Except.error.injEq] at he'
          rw [← he']
          simpa using hre
        · intro d hd
          exact absurd hd (by simp)

/-- C6: retryRequest invokes the underlying request at most
1 + maxRetries = 4 times, retries only on errors isRetryableError accepts,
and terminates with the first successful result or the last error (the
outcome of the final attempt, all earlier attempts having failed
retryably). -/
theorem c6_retry_capped_terminating (req : Nat → Except String Nat) :
    (retryRequest req maxRetries 0).2.1 ≤ 1 + maxRetries ∧ 1 + maxRetries = 4 ∧
    (∀ i, i + 1 < (retryRequest req maxRetries 0).2.1 →
      ∃ e, req i = .error e ∧ isRetryableError e = true) ∧
    (retryRequest req maxRetries 0).1 = req ((retryRequest req maxRetries 0).2.1 - 1) ∧
    (∀ e, (retryRequest req maxRetries 0).1 = .error e →
      ((retryRequest req maxRetries 0).2.1 = 1 + maxRetries ∨ isRetryableError e = false)) := by
  obtain ⟨h1, h2, h3, h4, h5, h6, h7⟩ := retryRequest_spec req maxRetries 0
  refine ⟨by omega, rfl, ?_, by simpa using h4, ?_⟩
  · intro i hi
    simpa using h3 i hi
  · intro e he
    rcases h5 e he with h | h
    · left; omega
    · right; exact h

/-- Witness for c6_retry_capped_terminating at the always-failing request. -/
theorem c6_retry_capped_terminating_witness :
    (retryRequest alwaysTimeout maxRetries 0).2.1 ≤ 1 + maxRetries :=
  (c6_retry_capped_terminating alwaysTimeout).1

/-- C4 counterexample: under the default budget, a request that fails every
attempt with a retryable error waits 1000 ms before each of its three
retries; the delays are constant, so they do not grow (exponentially or
otherwise) with the retry index. -/
theorem c4_delay_constant_cex :
    perfexRetryDelays = [1000, 1000, 1000] ∧
    ¬ delaysGrowExponentially perfexRetryDelays := by
  refine ⟨by decide, fun hgrow => ?_⟩
  have h := hgrow 0 (by decide)
  revert h
  decide

/-- C4 amended: the retry logic is a fixed-count constant-delay loop: every
delay waited before a retry is the constant retryDelay = 1000 ms, the number
of retries (delays) is at most the retries budget, and the number of
attempts is at most retries + 1. -/
theorem c4_retry_fixed_count_constant_delay (req : Nat → Except String Nat)
    (retries k : Nat) :
    (∀ d ∈ (retryRequest req retries k).2.2, d = retryDelay) ∧ retryDelay = 1000 ∧
    (retryRequest req retries k).2.2.length ≤ retries ∧
    (retryRequest req retries k).2.1 ≤ retries + 1 := by
  obtain ⟨h1, h2, h3, h4, h5, h6, h7⟩ := retryRequest_spec req retries k
  exact ⟨h6, rfl, by omega, h2⟩

/-- Witness for c4_retry_fixed_count_constant_delay. -/
theorem c4_retry_fixed_count_constant_delay_witness :
    (retryRequest alwaysTimeout 3 0).2.2.length ≤ 3 :=
  (c4_retry_fixed_count_constant_delay alwaysTimeout 3 0).2.2.1

/-! ## Rate limiter -/

/-- C8: cleanupExpiredEntries is a no-op within 60 s of the previous sweep;
otherwise it deletes exactly the entries whose resetTime is strictly in the
past and keeps every live entry (count and resetTime included) unchanged. -/
theorem c8_cleanup_sweeps_exactly_expired (s : RLState) (now : Nat) :
    (now - s.lastCleanup < CLEANUP_INTERVAL → cleanupExpiredEntries now s = s) ∧
    (CLEANUP_INTERVAL ≤ now - s.lastCleanup →
      ∀ k, (s.store k = none → (cleanupExpiredEntries now s).store k = none) ∧
        ∀ e, s.store k = some e →
          ((e.resetTime < now → (cleanupExpiredEntries now s).store k = none) ∧
           (¬ e.resetTime < now → (cleanupExpiredEntries now s).store k = some e))) := by
  constructor
  · intro h
    unfold cleanupExpiredEntries
    rw [if_pos h]
  · intro h k
    have hno : ¬ now - s.lastCleanup < CLEANUP_INTERVAL := Nat.not_lt.mpr h
    constructor
    · intro hk
      unfold cleanupExpiredEntries
      rw [if_neg hno]
      simp only [hk]
    · intro e hk
      constructor
      · intro hexp
        unfold cleanupExpiredEntries
        rw [if_neg hno]
        simp only [hk]
        rw [if_pos hexp]
      · intro hlive
        unfold cleanupExpiredEntries
        rw [if_neg hno]
        simp only [hk]
        rw [if_neg hlive]

/-- Witness for c8_cleanup_sweeps_exactly_expired: a sweep at time 70000 on
a store whose single entry expired at 100 removes that entry. -/
theorem c8_cleanup_sweeps_exactly_expired_witness :
    CLEANUP_INTERVAL ≤ 70000 - rlOneEntry.lastCleanup ∧
    rlOneEntry.store "ip:9.9.9.9" = some ⟨5, 100⟩ ∧ (100 : Nat) < 70000 ∧
    (cleanupExpiredEntries 70000 rlOneEntry).store "ip:9.9.9.9" = none :=
  ⟨by decide, rfl, by decide,
    (((c8_cleanup_sweeps_exactly_expired rlOneEntry 70000).2 (by decide)
      "ip:9.9.9.9").2 ⟨5, 100⟩ rfl).1 (by decide)⟩

/-- A live entry (resetTime not in the past) survives cleanup in either
branch. -/
theorem cleanup_keeps_live (now : Nat) (s : RLState) (k : String) (e : RLEntry)
    (hk : s.store k = some e) (hlive : ¬ e.resetTime < now) :
    (cleanupExpiredEntries now s).store k = some e := by
  unfold cleanupExpiredEntries
  split
  · exact hk
  · simp only [hk]
    rw [if_neg hlive]

/-- One in-window call: the stored live entry gains one count, the window
end is unchanged, and the result reports the incremented count against the
limit. -/
theorem rateLimit_step_live (id : String) (w m now : Nat) (s : RLState)
    (c R : Nat) (hk : s.store id = some ⟨c, R⟩) (hlive : ¬ R < now) :
    (rateLimit id w m now s).1.success = decide (c + 1 ≤ m) ∧
    (rateLimit id w m now s).1.remaining = m - (c + 1) ∧
    (rateLimit id w m now s).2.store id = some ⟨c + 1, R⟩ := by
  have hc := cleanup_keeps_live now s id ⟨c, R⟩ hk hlive
  refine ⟨?_, ?_, ?_⟩ <;> simp [rateLimit, nextEntry, hc, hlive]

/-- A call that finds no entry, or an expired one, starts a fresh window:
count 1, resetTime = now + windowMs. -/
theorem rateLimit_step_fresh (id : String) (w m now : Nat) (s : RLState)
    (hk : s.store id = none ∨ ∃ e, s.store id = some e ∧ e.resetTime < now) :
    (rateLimit id w m now s).1.success = decide (1 ≤ m) ∧
    (rateLimit id w m now s).1.remaining = m - 1 ∧
    (rateLimit id w m now s).2.store id = some ⟨1, now + w⟩ := by
  have hne : nextEntry w now ((cleanupExpiredEntries now s).store id) = ⟨1, now + w⟩ := by
    unfold cleanupExpiredEntries
    rcases hk with hk | ⟨e, hk, hexp⟩
    · split
      · simp [hk, nextEntry]
      · simp only [hk]
        simp [nextEntry]
    · split
      · simp [hk, nextEntry, hexp]
      · simp only [hk]
        rw [if_pos hexp]
        simp [nextEntry]
  refine ⟨?_, ?_, ?_⟩ <;> simp [rateLimit, hne]

/-- Calls for one identifier, all while the stored entry with window end R
is live: the i-th call (0-based) reports count c + i + 1. -/
theorem rlCalls_live_seq (id : String) (w m : Nat) (ts : List Nat)
    (s : RLState) (c R : Nat) (hs : s.store id = some ⟨c, R⟩)
    (hts : ∀ t ∈ ts, t ≤ R) :
    ∀ (i : Nat) (r : RateLimitResult),
      (rlCalls id w m s ts).1.get? i = some r →
      r.success = decide (c + i + 1 ≤ m) ∧ r.remaining = m - (c + i + 1) := by
  induction ts generalizing s c with
  | nil =>
    intro i r hr
    simp [rlCalls] at hr
  | cons t ts ih =>
    intro i r hr
    have hlive : ¬ R < t := Nat.not_lt.mpr (hts t (List.mem_cons_self t ts))
    obtain ⟨h1, h2, h3⟩ := rateLimit_step_live id w m t s c R hs hlive
    rw [show rlCalls id w m s (t :: ts) =
        ((rateLimit id w m t s).1 ::
          (rlCalls id w m (rateLimit id w m t s).2 ts).1,
         (rlCalls id w m (rateLimit id w m t s).2 ts).2) from rfl] at hr
    cases i with
    | zero =>
      simp only [List.get?] at hr
      cases hr
      exact ⟨h1, h2⟩
    | succ j =>
      simp only [List.get?] at hr
      have := ih (rateLimit id w m t s).2 (c + 1) h3
        (fun t' ht' => hts t' (List.mem_cons_of_mem t ht')) j r hr
      rw [show c + 1 + j + 1 = c + (j + 1) + 1 by omega] at this
      exact this

/-- C3: the rate limiter is a fixed-window counter. Keying: a supplied
(non-empty) user id gives "user:" ++ id, else the client IP extracted from
x-forwarded-for / x-real-ip gives "ip:" ++ ip. Counting: starting with no
live entry, the (i+1)-st call of a sequence whose timestamps stay within the
window opened by the first call succeeds exactly when i + 1 ≤ maxRequests
and reports remaining = maxRequests - (i + 1) (truncated subtraction is
Math.max(0, ...)). Reset: a call after the stored resetTime has passed
starts a fresh window with count 1 and resetTime = now + windowMs. Frame: a
call for a different identifier never touches a live entry. -/
theorem c3_rate_limiter_fixed_window :
    (∀ (xff xrip : Option String) (uid : String), uid ≠ "" →
      getRateLimitIdentifier xff xrip (some uid) = "user:" ++ uid) ∧
    (∀ xff xrip : Option String,
      getRateLimitIdentifier xff xrip none = "ip:" ++ clientIp xff xrip) ∧
    (∀ (id : String) (w m : Nat) (s : RLState) (t0 : Nat) (ts : List Nat),
      (s.store id = none ∨ ∃ e, s.store id = some e ∧ e.resetTime < t0) →
      (∀ t ∈ ts, t ≤ t0 + w) →
      ∀ (i : Nat) (r : RateLimitResult),
        (rlCalls id w m s (t0 :: ts)).1.get? i = some r →
        (r.success = true ↔ i + 1 ≤ m) ∧ r.remaining = m - (i + 1)) ∧
    (∀ (id : String) (w m now : Nat) (s : RLState) (e : RLEntry),
      s.store id = some e → e.resetTime < now →
      (rateLimit id w m now s).2.store id = some ⟨1, now + w⟩) ∧
    (∀ (id id2 : String) (w m now : Nat) (s : RLState) (e : RLEntry),
      id2 ≠ id → s.store id = some e → ¬ e.resetTime < now →
      (rateLimit id2 w m now s).2.store id = some e) := by
  refine ⟨?_, ?_, ?_, ?_, ?_⟩
  · intro xff xrip uid huid
    simp [getRateLimitIdentifier, huid]
  · intro xff xrip
    rfl
  · intro id w m s t0 ts hfresh hts i r hr
    obtain ⟨h1, h2, h3⟩ := rateLimit_step_fresh id w m t0 s hfresh
    rw [show rlCalls id w m s (t0 :: ts) =
        ((rateLimit id w m t0 s).1 ::
          (rlCalls id w m (rateLimit id w m t0 s).2 ts).1,
         (rlCalls id w m (rateLimit id w m t0 s).2 ts).2) from rfl] at hr
    cases i with
    | zero =>
      simp only [List.get?] at hr
      cases hr
      rw [h1, h2]
      simp
    | succ j =>
      simp only [List.get?] at hr
      have := rlCalls_live_seq id w m ts (rateLimit id w m t0 s).2 1 (t0 + w)
        h3 hts j r hr
      rw [show 1 + j + 1 = j + 1 + 1 by omega] at this
      rw [this.1, this.2]
      simp
  · intro id w m now s e hk hexp
    exact (rateLimit_step_fresh id w m now s (Or.inr ⟨e, hk, hexp⟩)).2.2
  · intro id id2 w m now s e hne hk hlive
    have hc := cleanup_keeps_live now s id e hk hlive
    have hne2 : ¬ (id = id2) := Ne.symm hne
    simp [rateLimit, hne2, hc]

/-- Witness for c3_rate_limiter_fixed_window: three calls at times 2, 3, 4
for one IP identifier against maxRequests = 2, windowMs = 60; the third call
is rejected with remaining 0. -/
theorem c3_rate_limiter_fixed_window_witness :
    (emptyRL.store "ip:1.1.1.1" = none) ∧
    (∀ t ∈ ([3, 4] : List Nat), t ≤ 2 + 60) ∧
    ((rlCalls "ip:1.1.1.1" 60 2 emptyRL [2, 3, 4]).1.get? 2 =
      some ⟨false, 2, 0, 62, some 1⟩) ∧
    (((false : Bool) = true ↔ 2 + 1 ≤ 2) ∧ (0 : Nat) = 2 - (2 + 1)) :=
  ⟨rfl, by decide, by decide,
    c3_rate_limiter_fixed_window.2.2.1 "ip:1.1.1.1" 60 2 emptyRL 2 [3, 4]
      (Or.inl rfl) (by decide) 2 ⟨false, 2, 0, 62, some 1⟩ (by decide)⟩

/-! ## Auth check -/

/-- Every verifyAuth outcome is either an authorized result carrying the
user and no error, or an unauthorized result carrying an error message and
no user. -/
theorem verifyAuth_shape (env : AuthEnv) (hdr : Option String) :
    (∃ em uid, verifyAuth env hdr = ⟨true, some ⟨some em, uid⟩, none⟩) ∨
    (∃ msg, verifyAuth env hdr = ⟨false, none, some msg⟩) := by
  cases hdr with
  | none => exact Or.inr ⟨"No authorization header", rfl⟩
  | some h =>
    by_cases hh : h = ""
    · exact Or.inr ⟨"No authorization header", by simp [verifyAuth, hh]⟩
    · by_cases hcfg : env.supabaseUrl = "" ∨ env.supabaseAnonKey = ""
      · exact Or.inr ⟨"Supabase configuration missing", by simp [verifyAuth, hh, hcfg]⟩
      · cases hres : env.resolveToken (extractToken h) with
        | thrown =>
          exact Or.inr ⟨"Internal server error", by simp [verifyAuth, hh, hcfg, hres]⟩
        | invalid =>
          exact Or.inr ⟨"Invalid token", by simp [verifyAuth, hh, hcfg, hres]⟩
        | ok u =>
          cases hem : u.email with
          | none =>
            exact Or.inr ⟨"Account not authorized",
              by simp [verifyAuth, hh, hcfg, hres, hem]⟩
          | some em =>
            by_cases hlow : strToLower em = strToLower AUTHORIZED_EMAIL
            · cases hfil : env.accounts.filter (fun a => a.email == em && a.is_active) with
              | nil =>
                exact Or.inr ⟨"Account not authorized",
                  by simp [verifyAuth, hh, hcfg, hres, hem, hlow, hfil]⟩
              | cons x xs =>
                cases xs with
                | nil =>
                  exact Or.inl ⟨em, u.id,
                    by simp [verifyAuth, hh, hcfg, hres, hem, hlow, hfil]⟩
                | cons y ys =>
                  exact Or.inr ⟨"Account not authorized",
                    by simp [verifyAuth, hh, hcfg, hres, hem, hlow, hfil]⟩
            · exact Or.inr ⟨"Account not authorized",
                by simp [verifyAuth, hh, hcfg, hres, hem, hlow]⟩

/-- With no repeated emails, the active-row filter for one email keeps at
most one row. -/
theorem filter_email_at_most_one (accounts : List Account) (em : String)
    (hnd : noDupEmails accounts = true) :
    (accounts.filter (fun a => a.email == em && a.is_active)).length ≤ 1 := by
  induction accounts with
  | nil => simp
  | cons a rest ih =>
    simp only [noDupEmails, Bool.and_eq_true, Bool.not_eq_true',
      List.any_eq_false] at hnd
    obtain ⟨hna, hrest⟩ := hnd
    by_cases hpa : (a.email == em && a.is_active) = true
    · have hempty : rest.filter (fun b => b.email == em && b.is_active) = [] := by
        apply List.filter_eq_nil_iff.mpr
        intro b hb
        have hbe := hna b hb
        simp only [Bool.and_eq_true, beq_iff_eq] at hpa ⊢
        intro hcon
        exact absurd (hcon.1.trans hpa.1.symm) (by simpa [beq_iff_eq] using hbe)
      simp [List.filter_cons, hpa, hempty]
    · simp only [List.filter_cons, hpa]
      simpa using ih hrest

/-- C2 counterexample: an environment in which the bearer token resolves to
the hard-coded email and the authorized_accounts table holds an active row
for it, yet verifyAuth returns authorized = false, because the Supabase URL
and anon key are not configured, a failure case the claim's "if and only if"
does not list. -/
theorem c2_config_missing_cex :
    authEnvNoConfig.resolveToken (extractToken "Bearer tok123") =
      .ok ⟨some AUTHORIZED_EMAIL, "uid-1"⟩ ∧
    (∃ a ∈ authEnvNoConfig.accounts, a.email = AUTHORIZED_EMAIL ∧ a.is_active = true) ∧
    verifyAuth authEnvNoConfig (some "Bearer tok123") =
      ⟨false, none, some "Supabase configuration missing"⟩ := by
  refine ⟨by decide, ⟨⟨AUTHORIZED_EMAIL, true⟩, by decide, rfl, rfl⟩, by decide⟩

/-- C2 amended: provided the accounts table repeats no email (its schema
declares email UNIQUE), verifyAuth returns authorized = true exactly when
the request carries a non-empty authorization header, the Supabase URL and
anon key are configured, the auth provider resolves the extracted bearer
token to a user, that user's email compares case-insensitively equal to the
hard-coded AUTHORIZED_EMAIL, and authorized_accounts holds an active row for
that email; in every other case it returns authorized = false with an error
message and no user. -/
theorem c2_verify_auth_amended (env : AuthEnv) (hdr : Option String)
    (hnodup : noDupEmails env.accounts = true) :
    ((verifyAuth env hdr).authorized = true ↔
      ∃ h u em, hdr = some h ∧ h ≠ "" ∧
        env.supabaseUrl ≠ "" ∧ env.supabaseAnonKey ≠ "" ∧
        env.resolveToken (extractToken h) = .ok u ∧
        u.email = some em ∧ strToLower em = strToLower AUTHORIZED_EMAIL ∧
        ∃ a ∈ env.accounts, a.email = em ∧ a.is_active = true) ∧
    ((verifyAuth env hdr).authorized = false →
      (verifyAuth env hdr).error.isSome = true ∧ (verifyAuth env hdr).user = none) := by
  constructor
  · constructor
    · intro hauth
      cases hdr with
      | none => simp [verifyAuth] at hauth
      | some h =>
        by_cases hh : h = ""
        · simp [verifyAuth, hh] at hauth
        · by_cases hcfg : env.supabaseUrl = "" ∨ env.supabaseAnonKey = ""
          · simp [verifyAuth, hh, hcfg] at hauth
          · cases hres : env.resolveToken (extractToken h) with
            | thrown => simp [verifyAuth, hh, hcfg, hres] at hauth
            | invalid => simp [verifyAuth, hh, hcfg, hres] at hauth
            | ok u =>
              cases hem : u.email with
              | none => simp [verifyAuth, hh, hcfg, hres, hem] at hauth
              | some em =>
                by_cases hlow : strToLower em = strToLower AUTHORIZED_EMAIL
                · cases hfil : env.accounts.filter (fun a => a.email == em && a.is_active) with
                  | nil => simp [verifyAuth, hh, hcfg, hres, hem, hlow, hfil] at hauth
                  | cons x xs =>
                    cases xs with
                    | nil =>
                      have hx : x ∈ env.accounts.filter
                          (fun a => a.email == em && a.is_active) := by
                        rw [hfil]; exact List.mem_singleton.mpr rfl
                      obtain ⟨hxmem, hxp⟩ := List.mem_filter.mp hx
                      simp only [Bool.and_eq_true, beq_iff_eq] at hxp
                      push_neg at hcfg
                      exact ⟨h, u, em, rfl, hh, hcfg.1, hcfg.2, hres, hem, hlow,
                        x, hxmem, hxp.1, hxp.2⟩
                    | cons y ys =>
                      simp [verifyAuth, hh, hcfg, hres, hem, hlow, hfil] at hauth
                · simp [verifyAuth, hh, hcfg, hres, hem, hlow] at hauth
    · rintro ⟨h, u, em, rfl, hh, hurl, hkey, hres, hem, hlow, a, hamem, hae, hact⟩
      have hcfg : ¬ (env.supabaseUrl = "" ∨ env.supabaseAnonKey = "") := by
        rintro (hc | hc)
        · exact hurl hc
        · exact hkey hc
      have hlen := filter_email_at_most_one env.accounts em hnodup
      have hamem2 : a ∈ env.accounts.filter (fun b => b.email == em && b.is_active) :=
        List.mem_filter.mpr ⟨hamem, by simp [hae, hact]⟩
      have hfil : env.accounts.filter (fun b => b.email == em && b.is_active) = [a] := by
        cases hf : env.accounts.filter (fun b => b.email == em && b.is_active) with
        | nil => rw [hf] at hamem2; exact absurd hamem2 (List.not_mem_nil a)
        | cons x xs =>
          cases xs with
          | nil =>
            rw [hf] at hamem2
            rw [List.mem_singleton.mp hamem2]
          | cons y ys => rw [hf] at hlen; simp at hlen
      simp [verifyAuth, hh, hcfg, hres, hem, hlow, hfil]
  · intro hfalse
    rcases verifyAuth_shape env hdr with ⟨em, uid, heq⟩ | ⟨msg, heq⟩
    · rw [heq] at hfalse
      simp at hfalse
    · rw [heq]
      exact ⟨rfl, rfl⟩

/-- Witness for c2_verify_auth_amended: in the fully configured environment
the valid bearer token is authorized. -/
theorem c2_verify_auth_amended_witness :
    noDupEmails authEnvGood.accounts = true ∧
    (verifyAuth authEnvGood (some "Bearer tok123")).authorized = true :=
  ⟨by decide,
    (c2_verify_auth_amended authEnvGood (some "Bearer tok123") (by decide)).1.mpr
      ⟨"Bearer tok123", ⟨some AUTHORIZED_EMAIL, "uid-1"⟩, AUTHORIZED_EMAIL, rfl,
        by decide, by decide, by decide, by decide, rfl, rfl,
        ⟨AUTHORIZED_EMAIL, true⟩, by decide, rfl, rfl⟩⟩

/-! ## Upsert algebra for the metrics tables -/

/-- The Bool key test, propositionally. -/
theorem sameMetricKey_iff (a b : MetricRow) :
    sameMetricKey a b = true ↔
      a.metric_type = b.metric_type ∧ a.metric_key = b.metric_key ∧
        a.metric_date = b.metric_date := by
  simp [sameMetricKey, and_assoc]

/-- Key agreement is reflexive. -/
theorem sameMetricKey_refl (a : MetricRow) : sameMetricKey a a = true := by
  simp [sameMetricKey]

/-- Key agreement is symmetric. -/
theorem sameMetricKey_symm {a b : MetricRow} (h : sameMetricKey a b = true) :
    sameMetricKey b a = true := by
  rw [sameMetricKey_iff] at h ⊢
  exact ⟨h.1.symm, h.2.1.symm, h.2.2.symm⟩

/-- Key agreement is transitive. -/
theorem sameMetricKey_trans {a b c : MetricRow} (h1 : sameMetricKey a b = true)
    (h2 : sameMetricKey b c = true) : sameMetricKey a c = true := by
  rw [sameMetricKey_iff] at h1 h2 ⊢
  exact ⟨h1.1.trans h2.1, h1.2.1.trans h2.2.1, h1.2.2.trans h2.2.2⟩

/-- Rows whose metric_type or metric_key differ never agree on the key. -/
theorem sameMetricKey_false_of_ne (a b : MetricRow)
    (h : a.metric_type ≠ b.metric_type ∨ a.metric_key ≠ b.metric_key) :
    sameMetricKey a b = false := by
  rw [Bool.eq_false_iff]
  intro hc
  rw [sameMetricKey_iff] at hc
  rcases h with h | h
  · exact h hc.1
  · exact h hc.2.1

/-- An upsert grows the table by one row exactly when no stored row shares
the key, and leaves the row count unchanged exactly when one does. -/
theorem upsertMetric_length (t : List MetricRow) (r : MetricRow) :
    (upsertMetric t r).length =
      if t.any (sameMetricKey r) then t.length else t.length + 1 := by
  induction t with
  | nil => simp [upsertMetric]
  | cons x xs ih =>
    by_cases hx : sameMetricKey r x = true
    · simp [upsertMetric, List.any_cons, hx]
    · by_cases hany : xs.any (sameMetricKey r) = true
      · simp [upsertMetric, List.any_cons, hx, hany, ih]
      · simp [upsertMetric, List.any_cons, hx, hany, ih]

/-- The upserted row is in the table afterwards. -/
theorem mem_upsertMetric_self (t : List MetricRow) (r : MetricRow) :
    r ∈ upsertMetric t r := by
  induction t with
  | nil => simp [upsertMetric]
  | cons x xs ih =>
    by_cases hx : sameMetricKey r x = true
    · simp [upsertMetric, hx]
    · simp only [upsertMetric, hx, if_false, Bool.false_eq_true]
      exact List.mem_cons_of_mem x ih

/-- Everything in an upserted table was already stored or is the new row. -/
theorem mem_upsertMetric (t : List MetricRow) (r y : MetricRow)
    (hy : y ∈ upsertMetric t r) : y ∈ t ∨ y = r := by
  induction t with
  | nil =>
    simp [upsertMetric] at hy
    exact Or.inr hy
  | cons x xs ih =>
    by_cases hx : sameMetricKey r x = true
    · simp only [upsertMetric, hx, if_true, List.mem_cons] at hy
      rcases hy with rfl | hy
      · exact Or.inr rfl
      · exact Or.inl (List.mem_cons_of_mem x hy)
    · simp only [upsertMetric, hx, if_false, Bool.false_eq_true, List.mem_cons] at hy
      rcases hy with rfl | hy
      · exact Or.inl (List.mem_cons_self y xs)
      · rcases ih hy with h | h
        · exact Or.inl (List.mem_cons_of_mem x h)
        · exact Or.inr h

/-- A stored row whose key the upsert does not target survives unchanged. -/
theorem mem_upsertMetric_of_other (t : List MetricRow) (r x : MetricRow)
    (hx : x ∈ t) (hne : sameMetricKey r x = false) : x ∈ upsertMetric t r := by
  induction t with
  | nil => simp at hx
  | cons y ys ih =>
    by_cases hy : sameMetricKey r y = true
    · rcases List.mem_cons.mp hx with rfl | hx
      · rw [hy] at hne
        exact absurd hne (by simp)
      · simp only [upsertMetric, hy, if_true]
        exact List.mem_cons_of_mem r hx
    · simp only [upsertMetric, hy, if_false, Bool.false_eq_true]
      rcases List.mem_cons.mp hx with rfl | hx
      · exact List.mem_cons_self x (upsertMetric ys r)
      · exact List.mem_cons_of_mem y (ih hx)

/-- Upserting the same row twice equals upserting it once. -/
theorem upsertMetric_idem (t : List MetricRow) (r : MetricRow) :
    upsertMetric (upsertMetric t r) r = upsertMetric t r := by
  induction t with
  | nil => simp [upsertMetric, sameMetricKey_refl]
  | cons x xs ih =>
    by_cases hx : sameMetricKey r x = true
    · simp [upsertMetric, hx, sameMetricKey_refl]
    · simp [upsertMetric, hx, ih]

/-- A row already absorbed by the table stays absorbed after an upsert with
a different key. -/
theorem upsertMetric_stable (t : List MetricRow) (r s : MetricRow)
    (hstab : upsertMetric t r = t) (hkey : sameMetricKey r s = false) :
    upsertMetric (upsertMetric t s) r = upsertMetric t s := by
  induction t with
  | nil => simp [upsertMetric] at hstab
  | cons x xs ih =>
    have hsr : sameMetricKey s r = false := by
      rw [Bool.eq_false_iff] at hkey ⊢
      intro hc
      exact hkey (sameMetricKey_symm hc)
    by_cases hx : sameMetricKey r x = true
    · have hrx : r = x := by
        simp only [upsertMetric, hx, if_true, List.cons.injEq] at hstab
        exact hstab.1
      subst hrx
      have hsx : sameMetricKey s r = false := hsr
      simp [upsertMetric, hsx, sameMetricKey_refl, hx]
    · have hxs : upsertMetric xs r = xs := by
        simp only [upsertMetric, hx, if_false, Bool.false_eq_true,
          List.cons.injEq] at hstab
        exact hstab.2
      by_cases hsx : sameMetricKey s x = true
      · simp [upsertMetric, hsx, hkey, hxs]
      · simp [upsertMetric, hsx, hx, ih hxs]

/-- Upserting preserves the UNIQUE(metric_type, metric_key, metric_date)
invariant. -/
theorem noDupKeys_upsertMetric (t : List MetricRow) (r : MetricRow)
    (h : noDupKeys t = true) : noDupKeys (upsertMetric t r) = true := by
  induction t with
  | nil => simp [upsertMetric, noDupKeys]
  | cons x xs ih =>
    simp only [noDupKeys, Bool.and_eq_true, Bool.not_eq_true',
      List.any_eq_false] at h
    obtain ⟨hxany, hxs⟩ := h
    by_cases hx : sameMetricKey r x = true
    · simp only [upsertMetric, hx, if_true, noDupKeys, Bool.and_eq_true,
        Bool.not_eq_true', List.any_eq_false]
      refine ⟨?_, hxs⟩
      intro y hy hry
      have hxy : sameMetricKey x y = true :=
        sameMetricKey_trans (sameMetricKey_symm hx) hry
      exact absurd hxy (by simpa using hxany y hy)
    · simp only [upsertMetric, hx, if_false, Bool.false_eq_true, noDupKeys,
        Bool.and_eq_true, Bool.not_eq_true', List.any_eq_false]
      refine ⟨?_, ih hxs⟩
      intro y hy hxy
      rcases mem_upsertMetric xs r y hy with hmem | rfl
      · exact absurd hxy (by simpa using hxany y hmem)
      · exact hx (sameMetricKey_symm hxy)

/-! ## Upsert algebra for aggregated_insights -/

/-- When some stored row shares the constraint triple, the insight write
leaves the table unchanged (the insert fails and the error is ignored). -/
theorem upsertInsight_of_any (t : List InsightRow) (r : InsightRow)
    (h : t.any (sameInsightKey r) = true) : upsertInsight t r = t := by
  induction t with
  | nil => simp at h
  | cons x xs ih =>
    by_cases hx : sameInsightKey r x = true
    · simp [upsertInsight, hx]
    · simp only [List.any_cons, Bool.or_eq_true] at h
      rcases h with h | h
      · exact absurd h hx
      · simp [upsertInsight, hx, ih h]

/-- When no stored row shares the constraint triple, the insight write
appends the row. -/
theorem upsertInsight_of_not_any (t : List InsightRow) (r : InsightRow)
    (h : t.any (sameInsightKey r) = false) : upsertInsight t r = t ++ [r] := by
  induction t with
  | nil => simp [upsertInsight]
  | cons x xs ih =>
    simp only [List.any_cons, Bool.or_eq_false_iff] at h
    simp [upsertInsight, h.1, ih h.2]

/-- An insight write grows the table by one row exactly when no stored row
shares (insight_type, insight_key, source), and collides (adds nothing)
exactly when one does. -/
theorem upsertInsight_length (t : List InsightRow) (r : InsightRow) :
    (upsertInsight t r).length =
      if t.any (sameInsightKey r) then t.length else t.length + 1 := by
  by_cases h : t.any (sameInsightKey r) = true
  · simp [upsertInsight_of_any t r h, h]
  · rw [Bool.not_eq_true] at h
    simp [upsertInsight_of_not_any t r h, h]

/-! ## C1: how the sync writes are keyed -/

/-- C1 amended: the metrics-table upserts of the sync operations are keyed
by the triple (metric_type, metric_key, metric_date): a write collides with
(overwrites) a stored row exactly when they agree on that triple, the
written row is stored afterwards, and rows with any other triple are
untouched. The aggregated_insights writes, however, are keyed by
(insight_type, insight_key, source) with no date: they collide exactly when
that triple repeats. Every write syncPerfexCRM issues is a perfexcrm_metrics
row dated today or the ("sales_summary", "perfexcrm", "perfexcrm") insight;
every write syncUchat issues is a uchat_metrics row dated today or the
("chat_summary", "uchat", "uchat") insight; syncAll issues those plus at
most the ("combined_summary", "dashboard", "combined") insight. -/
theorem c1_sync_upsert_keys :
    (∀ (t : List MetricRow) (r : MetricRow),
      ((upsertMetric t r).length = t.length ↔ t.any (sameMetricKey r) = true) ∧
      r ∈ upsertMetric t r ∧
      (∀ x ∈ t, sameMetricKey r x = false → x ∈ upsertMetric t r)) ∧
    (∀ (t : List InsightRow) (r : InsightRow),
      ((upsertInsight t r).length = t.length ↔ t.any (sameInsightKey r) = true)) ∧
    (∀ (cfg : ApiConfig) (stats : PStats) (customers : List Customer)
        (invoices : List Invoice) (leads : List Lead) (today nowIso : String)
        (wr : Nat → Bool) (db : DB),
      ¬ (cfg.apiUrl = "" ∨ cfg.apiKey = "") →
      ∀ w ∈ (syncPerfexCRM cfg ⟨.ok stats, .ok customers, .ok invoices, .ok leads⟩
          today nowIso wr db).2.2,
        (∃ m, w = .pmetric m ∧ m.metric_date = today) ∨
        (∃ iv, w = .insight ⟨"sales_summary", "perfexcrm", iv, "perfexcrm"⟩)) ∧
    (∀ (cfg : ApiConfig) (stats : UStats) (active : List Chat)
        (today nowIso : String) (wr : Nat → Bool) (db : DB),
      ¬ (cfg.apiUrl = "" ∨ cfg.apiKey = "") →
      ∀ w ∈ (syncUchat cfg stats active today nowIso wr db).2.2,
        (∃ m, w = .umetric m ∧ m.metric_date = today) ∨
        (∃ iv, w = .insight ⟨"chat_summary", "uchat", iv, "uchat"⟩)) ∧
    (∀ (pcfg ucfg : ApiConfig) (pf : PerfexFetch) (ustats : UStats)
        (uactive : List Chat) (today nowIso : String) (pwr uwr : Nat → Bool)
        (cwr : Bool) (db : DB),
      ∀ w ∈ (syncAll pcfg ucfg pf ustats uactive today nowIso pwr uwr cwr db).2.2,
        w ∈ (syncPerfexCRM pcfg pf today nowIso pwr db).2.2 ∨
        w ∈ (syncUchat ucfg ustats uactive today nowIso uwr
              (syncPerfexCRM pcfg pf today nowIso pwr db).2.1).2.2 ∨
        (∃ iv, w = .insight ⟨"combined_summary", "dashboard", iv, "combined"⟩)) := by
  refine ⟨?_, ?_, ?_, ?_, ?_⟩
  · intro t r
    refine ⟨?_, mem_upsertMetric_self t r, mem_upsertMetric_of_other t r⟩
    rw [upsertMetric_length]
    by_cases h : t.any (sameMetricKey r) = true
    · simp [h]
    · simp [h]
  · intro t r
    rw [upsertInsight_length]
    by_cases h : t.any (sameInsightKey r) = true
    · simp [h]
    · simp [h]
  · intro cfg stats customers invoices leads today nowIso wr db hcfg w hw
    simp only [syncPerfexCRM, if_neg hcfg, List.mem_cons, List.not_mem_nil,
      or_false] at hw
    rcases hw with rfl | rfl | rfl | rfl | rfl
    · exact Or.inl ⟨_, rfl, rfl⟩
    · exact Or.inl ⟨_, rfl, rfl⟩
    · exact Or.inl ⟨_, rfl, rfl⟩
    · exact Or.inl ⟨_, rfl, rfl⟩
    · exact Or.inr ⟨_, rfl⟩
  · intro cfg stats active today nowIso wr db hcfg w hw
    simp only [syncUchat, if_neg hcfg, List.mem_cons, List.not_mem_nil,
      or_false] at hw
    rcases hw with rfl | rfl | rfl | rfl
    · exact Or.inl ⟨_, rfl, rfl⟩
    · exact Or.inl ⟨_, rfl, rfl⟩
    · exact Or.inl ⟨_, rfl, rfl⟩
    · exact Or.inr ⟨_, rfl⟩
  · intro pcfg ucfg pf ustats uactive today nowIso pwr uwr cwr db w hw
    unfold syncAll at hw
    dsimp only at hw
    split at hw
    · split at hw
      · simp only [List.append_assoc, List.mem_append, List.mem_cons,
          List.not_mem_nil, or_false] at hw
        rcases hw with hw | hw | rfl
        · exact Or.inl hw
        · exact Or.inr (Or.inl hw)
        · exact Or.inr (Or.inr ⟨_, rfl⟩)
      · simp only [List.mem_append] at hw
        rcases hw with hw | hw
        · exact Or.inl hw
        · exact Or.inr (Or.inl hw)
    · simp only [List.mem_append] at hw
      rcases hw with hw | hw
      · exact Or.inl hw
      · exact Or.inr (Or.inl hw)

/-- Witness for c1_sync_upsert_keys: the first write of a successful
PerfexCRM sync is a perfexcrm_metrics row dated today. -/
theorem c1_sync_upsert_keys_witness :
    ¬ (cfgGood.apiUrl = "" ∨ cfgGood.apiKey = "") ∧
    ((∃ m, (WriteOp.pmetric ⟨"statistics", "dashboard", "2025-01-01",
        .statsP ⟨"stats-blob"⟩⟩) = .pmetric m ∧ m.metric_date = "2025-01-01") ∨
      (∃ iv, (WriteOp.pmetric ⟨"statistics", "dashboard", "2025-01-01",
        .statsP ⟨"stats-blob"⟩⟩) =
          .insight ⟨"sales_summary", "perfexcrm", iv, "perfexcrm"⟩)) :=
  ⟨by decide,
    c1_sync_upsert_keys.2.2.1 cfgGood ⟨"stats-blob"⟩ [⟨"c1"⟩, ⟨"c2"⟩]
      [⟨"i1", some 150⟩, ⟨"i2", none⟩] [⟨"l1"⟩] "2025-01-01" "t1" wrAll dbEmpty
      (by decide)
      (.pmetric ⟨"statistics", "dashboard", "2025-01-01", .statsP ⟨"stats-blob"⟩⟩)
      (by decide)⟩

/-- C1 counterexample: two PerfexCRM sync runs on consecutive days with
identical upstream data. The metrics-table writes of the second run do not
collide with those of the first (eight rows, four per day), but the
aggregated_insights write of the second run collides with the row written on
the previous day even though the runs disagree on the date: the table keeps
one row, still carrying the first day's payload, and the second day's
payload is nowhere stored. The insight upserts are therefore not keyed by
(metric_type, metric_key, date). -/
theorem c1_insights_not_date_keyed_cex :
    dbAfterRun2.perfexcrm_metrics.length = 8 ∧
    dbAfterRun2.aggregated_insights.length = 1 ∧
    (syncPerfexCRM cfgGood pfGood "2025-01-02" "t2" wrAll dbAfterRun1).2.2.get? 4 =
      some (.insight ⟨"sales_summary", "perfexcrm",
        .sales ⟨2, 2, 150, 1, "t2"⟩, "perfexcrm"⟩) ∧
    (⟨"sales_summary", "perfexcrm", .sales ⟨2, 2, 150, 1, "t2"⟩, "perfexcrm"⟩ :
        InsightRow) ∉ dbAfterRun2.aggregated_insights ∧
    dbAfterRun2.aggregated_insights =
      [⟨"sales_summary", "perfexcrm", .sales ⟨2, 2, 150, 1, "t1"⟩, "perfexcrm"⟩] := by
  decide

/-! ## C5: idempotence of the metrics upsert sequences -/

/-- Re-upserting four pairwise distinct-keyed rows changes nothing. -/
theorem upsertMetric4_idem (t : List MetricRow) (r0 r1 r2 r3 : MetricRow)
    (h01 : sameMetricKey r0 r1 = false) (h02 : sameMetricKey r0 r2 = false)
    (h03 : sameMetricKey r0 r3 = false) (h12 : sameMetricKey r1 r2 = false)
    (h13 : sameMetricKey r1 r3 = false) (h23 : sameMetricKey r2 r3 = false) :
    upsertMetric (upsertMetric (upsertMetric (upsertMetric
      (upsertMetric (upsertMetric (upsertMetric (upsertMetric t r0) r1) r2) r3)
        r0) r1) r2) r3 =
    upsertMetric (upsertMetric (upsertMetric (upsertMetric t r0) r1) r2) r3 := by
  have s0a := upsertMetric_idem t r0
  have s0b := upsertMetric_stable _ r0 r1 s0a h01
  have s0c := upsertMetric_stable _ r0 r2 s0b h02
  have s0d := upsertMetric_stable _ r0 r3 s0c h03
  have s1a := upsertMetric_idem (upsertMetric t r0) r1
  have s1b := upsertMetric_stable _ r1 r2 s1a h12
  have s1c := upsertMetric_stable _ r1 r3 s1b h13
  have s2a := upsertMetric_idem (upsertMetric (upsertMetric t r0) r1) r2
  have s2b := upsertMetric_stable _ r2 r3 s2a h23
  have s3a := upsertMetric_idem
    (upsertMetric (upsertMetric (upsertMetric t r0) r1) r2) r3
  rw [s0d, s1c, s2b, s3a]

/-- Re-upserting three pairwise distinct-keyed rows changes nothing. -/
theorem upsertMetric3_idem (t : List MetricRow) (r0 r1 r2 : MetricRow)
    (h01 : sameMetricKey r0 r1 = false) (h02 : sameMetricKey r0 r2 = false)
    (h12 : sameMetricKey r1 r2 = false) :
    upsertMetric (upsertMetric (upsertMetric
      (upsertMetric (upsertMetric (upsertMetric t r0) r1) r2) r0) r1) r2 =
    upsertMetric (upsertMetric (upsertMetric t r0) r1) r2 := by
  have s0a := upsertMetric_idem t r0
  have s0b := upsertMetric_stable _ r0 r1 s0a h01
  have s0c := upsertMetric_stable _ r0 r2 s0b h02
  have s1a := upsertMetric_idem (upsertMetric t r0) r1
  have s1b := upsertMetric_stable _ r1 r2 s1a h12
  have s2a := upsertMetric_idem (upsertMetric (upsertMetric t r0) r1) r2
  rw [s0c, s1b, s2a]

/-- The perfexcrm_metrics table after a successful syncPerfexCRM run is the
four daily rows upserted into the previous table. -/
theorem syncPerfexCRM_metrics_table (cfg : ApiConfig)
    (hcfg : ¬ (cfg.apiUrl = "" ∨ cfg.apiKey = "")) (stats : PStats)
    (customers : List Customer) (invoices : List Invoice) (leads : List Lead)
    (today nowIso : String) (db : DB) :
    ((syncPerfexCRM cfg ⟨.ok stats, .ok customers, .ok invoices, .ok leads⟩
        today nowIso wrAll db).2.1).perfexcrm_metrics =
      upsertMetric (upsertMetric (upsertMetric (upsertMetric db.perfexcrm_metrics
        ⟨"statistics", "dashboard", today, .statsP stats⟩)
        ⟨"customers", "total", today, .countCustomers customers.length customers⟩)
        ⟨"invoices", "summary", today,
          .invoiceSummary invoices.length (totalRevenueOf invoices) invoices⟩)
        ⟨"leads", "total", today, .countLeads leads.length leads⟩ := by
  simp [syncPerfexCRM, if_neg hcfg, applyIf, applyWrite, wrAll]

/-- The uchat_metrics table after a successful syncUchat run is the three
daily rows upserted into the previous table. -/
theorem syncUchat_metrics_table (cfg : ApiConfig)
    (hcfg : ¬ (cfg.apiUrl = "" ∨ cfg.apiKey = "")) (stats : UStats)
    (active : List Chat) (today nowIso : String) (db : DB) :
    ((syncUchat cfg stats active today nowIso wrAll db).2.1).uchat_metrics =
      upsertMetric (upsertMetric (upsertMetric db.uchat_metrics
        ⟨"statistics", "dashboard", today, .statsU stats⟩)
        ⟨"chats", "active", today, .chatsData active.length active⟩)
        ⟨"chats", "total", today, .chatsData 0 []⟩ := by
  simp [syncUchat, if_neg hcfg, applyIf, applyWrite, wrAll, UchatClient.getChats]

/-- C5: with all write round trips succeeding, running the same sync twice
on the same day with identical fetched data leaves the metrics table exactly
as after the first run, and the first run preserves the one-row-per-key
invariant, so each key maps to one row with the same value. The second run
may carry a different wall-clock timestamp; the metrics rows do not contain
it. -/
theorem c5_sync_upserts_idempotent (cfg : ApiConfig)
    (stats : PStats) (customers : List Customer) (invoices : List Invoice)
    (leads : List Lead) (ustats : UStats) (uactive : List Chat)
    (today nowIso nowIso2 : String) (db : DB)
    (hcfg : ¬ (cfg.apiUrl = "" ∨ cfg.apiKey = "")) :
    (((syncPerfexCRM cfg ⟨.ok stats, .ok customers, .ok invoices, .ok leads⟩
        today nowIso2 wrAll
        (syncPerfexCRM cfg ⟨.ok stats, .ok customers, .ok invoices, .ok leads⟩
          today nowIso wrAll db).2.1).2.1).perfexcrm_metrics =
      ((syncPerfexCRM cfg ⟨.ok stats, .ok customers, .ok invoices, .ok leads⟩
          today nowIso wrAll db).2.1).perfexcrm_metrics) ∧
    (noDupKeys db.perfexcrm_metrics = true →
      noDupKeys ((syncPerfexCRM cfg
        ⟨.ok stats, .ok customers, .ok invoices, .ok leads⟩
        today nowIso wrAll db).2.1).perfexcrm_metrics = true) ∧
    (((syncUchat cfg ustats uactive today nowIso2 wrAll
        (syncUchat cfg ustats uactive today nowIso wrAll db).2.1).2.1).uchat_metrics =
      ((syncUchat cfg ustats uactive today nowIso wrAll db).2.1).uchat_metrics) ∧
    (noDupKeys db.uchat_metrics = true →
      noDupKeys ((syncUchat cfg ustats uactive today nowIso wrAll
        db).2.1).uchat_metrics = true) := by
  have h01 : sameMetricKey
      (⟨"statistics", "dashboard", today, .statsP stats⟩ : MetricRow)
      ⟨"customers", "total", today, .countCustomers customers.length customers⟩ =
      false := sameMetricKey_false_of_ne _ _
        (Or.inl (show ("statistics" : String) ≠ "customers" by decide))
  have h02 : sameMetricKey
      (⟨"statistics", "dashboard", today, .statsP stats⟩ : MetricRow)
      ⟨"invoices", "summary", today,
        .invoiceSummary invoices.length (totalRevenueOf invoices) invoices⟩ =
      false := sameMetricKey_false_of_ne _ _
        (Or.inl (show ("statistics" : String) ≠ "invoices" by decide))
  have h03 : sameMetricKey
      (⟨"statistics", "dashboard", today, .statsP stats⟩ : MetricRow)
      ⟨"leads", "total", today, .countLeads leads.length leads⟩ = false :=
    sameMetricKey_false_of_ne _ _
      (Or.inl (show ("statistics" : String) ≠ "leads" by decide))
  have h12 : sameMetricKey
      (⟨"customers", "total", today, .countCustomers customers.length customers⟩ :
        MetricRow)
      ⟨"invoices", "summary", today,
        .invoiceSummary invoices.length (totalRevenueOf invoices) invoices⟩ =
      false := sameMetricKey_false_of_ne _ _
        (Or.inl (show ("customers" : String) ≠ "invoices" by decide))
  have h13 : sameMetricKey
      (⟨"customers", "total", today, .countCustomers customers.length customers⟩ :
        MetricRow)
      ⟨"leads", "total", today, .countLeads leads.length leads⟩ = false :=
    sameMetricKey_false_of_ne _ _
      (Or.inl (show ("customers" : String) ≠ "leads" by decide))
  have h23 : sameMetricKey
      (⟨"invoices", "summary", today,
        .invoiceSummary invoices.length (totalRevenueOf invoices) invoices⟩ :
        MetricRow)
      ⟨"leads", "total", today, .countLeads leads.length leads⟩ = false :=
    sameMetricKey_false_of_ne _ _
      (Or.inl (show ("invoices" : String) ≠ "leads" by decide))
  have hu01 : sameMetricKey
      (⟨"statistics", "dashboard", today, .statsU ustats⟩ : MetricRow)
      ⟨"chats", "active", today, .chatsData uactive.length uactive⟩ = false :=
    sameMetricKey_false_of_ne _ _
      (Or.inl (show ("statistics" : String) ≠ "chats" by decide))
  have hu02 : sameMetricKey
      (⟨"statistics", "dashboard", today, .statsU ustats⟩ : MetricRow)
      ⟨"chats", "total", today, .chatsData 0 []⟩ = false :=
    sameMetricKey_false_of_ne _ _
      (Or.inl (show ("statistics" : String) ≠ "chats" by decide))
  have hu12 : sameMetricKey
      (⟨"chats", "active", today, .chatsData uactive.length uactive⟩ : MetricRow)
      ⟨"chats", "total", today, .chatsData 0 []⟩ = false :=
    sameMetricKey_false_of_ne _ _
      (Or.inr (show ("active" : String) ≠ "total" by decide))
  refine ⟨?_, ?_, ?_, ?_⟩
  · rw [syncPerfexCRM_metrics_table cfg hcfg stats customers invoices leads
      today nowIso2 _,
      syncPerfexCRM_metrics_table cfg hcfg stats customers invoices leads
      today nowIso db]
    exact upsertMetric4_idem _ _ _ _ _ h01 h02 h03 h12 h13 h23
  · intro hnd
    rw [syncPerfexCRM_metrics_table cfg hcfg stats customers invoices leads
      today nowIso db]
    exact noDupKeys_upsertMetric _ _ (noDupKeys_upsertMetric _ _
      (noDupKeys_upsertMetric _ _ (noDupKeys_upsertMetric _ _ hnd)))
  · rw [syncUchat_metrics_table cfg hcfg ustats uactive today nowIso2 _,
      syncUchat_metrics_table cfg hcfg ustats uactive today nowIso db]
    exact upsertMetric3_idem _ _ _ _ hu01 hu02 hu12
  · intro hnd
    rw [syncUchat_metrics_table cfg hcfg ustats uactive today nowIso db]
    exact noDupKeys_upsertMetric _ _ (noDupKeys_upsertMetric _ _
      (noDupKeys_upsertMetric _ _ hnd))

/-- Witness for c5_sync_upserts_idempotent: the two concrete runs on
2025-01-01 leave identical perfexcrm_metrics tables. -/
theorem c5_sync_upserts_idempotent_witness :
    ¬ (cfgGood.apiUrl = "" ∨ cfgGood.apiKey = "") ∧
    ((syncPerfexCRM cfgGood pfGood "2025-01-01" "t2" wrAll
        (syncPerfexCRM cfgGood pfGood "2025-01-01" "t1" wrAll
          dbEmpty).2.1).2.1).perfexcrm_metrics =
      ((syncPerfexCRM cfgGood pfGood "2025-01-01" "t1" wrAll
          dbEmpty).2.1).perfexcrm_metrics :=
  ⟨by decide,
    (c5_sync_upserts_idempotent cfgGood ⟨"stats-blob"⟩ [⟨"c1"⟩, ⟨"c2"⟩]
      [⟨"i1", some 150⟩, ⟨"i2", none⟩] [⟨"l1"⟩] ustatsZero [] "2025-01-01"
      "t1" "t2" dbEmpty (by decide)).1⟩

/-! ## C7: the aggregates are counts and sums -/

/-- The left fold the code uses computes the sum of the guarded totals. -/
theorem totalRevenueOf_eq_sum (l : List Invoice) :
    totalRevenueOf l = (l.map (fun i => i.total.getD 0)).sum := by
  have hgen : ∀ (l : List Invoice) (init : Int),
      l.foldl (fun sum inv => sum + inv.total.getD 0) init =
        init + (l.map (fun i => i.total.getD 0)).sum := by
    intro l
    induction l with
    | nil => intro init; simp
    | cons x xs ih =>
      intro init
      simp [List.foldl_cons, ih, add_assoc]
  simpa [totalRevenueOf] using hgen l 0

/-- C7: in a successful syncPerfexCRM run, the customers row stores count =
number of fetched customers, the invoices row stores count = number of
fetched invoices and total_revenue = the sum of their total fields (a
missing or zero total contributing 0), the leads row stores count = number
of fetched leads, and the sales_summary insight stores exactly those four
aggregates. -/
theorem c7_sync_aggregates (cfg : ApiConfig)
    (hcfg : ¬ (cfg.apiUrl = "" ∨ cfg.apiKey = "")) (stats : PStats)
    (customers : List Customer) (invoices : List Invoice) (leads : List Lead)
    (today nowIso : String) (wr : Nat → Bool) (db : DB) :
    (syncPerfexCRM cfg ⟨.ok stats, .ok customers, .ok invoices, .ok leads⟩
        today nowIso wr db).2.2.get? 1 =
      some (.pmetric ⟨"customers", "total", today,
        .countCustomers customers.length customers⟩) ∧
    (syncPerfexCRM cfg ⟨.ok stats, .ok customers, .ok invoices, .ok leads⟩
        today nowIso wr db).2.2.get? 2 =
      some (.pmetric ⟨"invoices", "summary", today,
        .invoiceSummary invoices.length
          ((invoices.map (fun i => i.total.getD 0)).sum) invoices⟩) ∧
    (syncPerfexCRM cfg ⟨.ok stats, .ok customers, .ok invoices, .ok leads⟩
        today nowIso wr db).2.2.get? 3 =
      some (.pmetric ⟨"leads", "total", today,
        .countLeads leads.length leads⟩) ∧
    (syncPerfexCRM cfg ⟨.ok stats, .ok customers, .ok invoices, .ok leads⟩
        today nowIso wr db).2.2.get? 4 =
      some (.insight ⟨"sales_summary", "perfexcrm",
        .sales ⟨customers.length, invoices.length,
          (invoices.map (fun i => i.total.getD 0)).sum, leads.length, nowIso⟩,
        "perfexcrm"⟩) := by
  refine ⟨?_, ?_, ?_, ?_⟩ <;>
    simp [syncPerfexCRM, if_neg hcfg, List.get?, totalRevenueOf_eq_sum]

/-- Witness for c7_sync_aggregates: the concrete run stores revenue
150 + 0 = 150 for the two fetched invoices. -/
theorem c7_sync_aggregates_witness :
    ¬ (cfgGood.apiUrl = "" ∨ cfgGood.apiKey = "") ∧
    (syncPerfexCRM cfgGood pfGood "2025-01-01" "t1" wrAll dbEmpty).2.2.get? 2 =
      some (.pmetric ⟨"invoices", "summary", "2025-01-01",
        .invoiceSummary 2
          (([⟨"i1", some 150⟩, ⟨"i2", none⟩] : List Invoice).map
            (fun i => i.total.getD 0)).sum
          [⟨"i1", some 150⟩, ⟨"i2", none⟩]⟩) :=
  ⟨by decide,
    (c7_sync_aggregates cfgGood (by decide) ⟨"stats-blob"⟩ [⟨"c1"⟩, ⟨"c2"⟩]
      [⟨"i1", some 150⟩, ⟨"i2", none⟩] [⟨"l1"⟩] "2025-01-01" "t1" wrAll
      dbEmpty).2.1⟩

/-! ## C9: error handling of the sync operations -/

/-- C9 amended: the sync operations never throw and always return a
SyncResult. A missing configuration yields the configuration-missing error
before any fetch or write, with the database unchanged and no write issued.
syncPerfexCRM returns success = false with the thrown message when any of
its four upstream fetches throws. But a failed database write round trip is
not detected (the code never reads the upsert error result), and the Uchat
client swallows every upstream failure internally, so syncUchat returns
success = true whenever its configuration is present. -/
theorem c9_sync_error_handling :
    (∀ (cfg : ApiConfig) (f : PerfexFetch) (today nowIso : String)
        (wr : Nat → Bool) (db : DB), (cfg.apiUrl = "" ∨ cfg.apiKey = "") →
      syncPerfexCRM cfg f today nowIso wr db =
        (⟨false, "perfexcrm", some "PerfexCRM API configuration is missing"⟩,
          db, [])) ∧
    (∀ (cfg : ApiConfig) (stats : UStats) (active : List Chat)
        (today nowIso : String) (wr : Nat → Bool) (db : DB),
      (cfg.apiUrl = "" ∨ cfg.apiKey = "") →
      syncUchat cfg stats active today nowIso wr db =
        (⟨false, "uchat", some "Uchat API configuration is missing"⟩, db, [])) ∧
    (∀ (cfg : ApiConfig) (f : PerfexFetch) (today nowIso : String)
        (wr : Nat → Bool) (db : DB), ¬ (cfg.apiUrl = "" ∨ cfg.apiKey = "") →
      (∃ e : String, f.statistics = .error e ∨ f.customers = .error e ∨
        f.invoices = .error e ∨ f.leads = .error e) →
      (syncPerfexCRM cfg f today nowIso wr db).1.success = false ∧
      (syncPerfexCRM cfg f today nowIso wr db).1.error.isSome = true) ∧
    (∀ (cfg : ApiConfig) (stats : UStats) (active : List Chat)
        (today nowIso : String) (wr : Nat → Bool) (db : DB),
      ¬ (cfg.apiUrl = "" ∨ cfg.apiKey = "") →
      (syncUchat cfg stats active today nowIso wr db).1 =
        ⟨true, "uchat", none⟩) := by
  refine ⟨?_, ?_, ?_, ?_⟩
  · intro cfg f today nowIso wr db hcfg
    simp [syncPerfexCRM, hcfg]
  · intro cfg stats active today nowIso wr db hcfg
    simp [syncUchat, hcfg]
  · intro cfg f today nowIso wr db hcfg hfail
    obtain ⟨fs, fc, fi, fl⟩ := f
    cases fs with
    | error e => simp [syncPerfexCRM, if_neg hcfg]
    | ok s =>
      cases fc with
      | error e => simp [syncPerfexCRM, if_neg hcfg]
      | ok c =>
        cases fi with
        | error e => simp [syncPerfexCRM, if_neg hcfg]
        | ok i =>
          cases fl with
          | error e => simp [syncPerfexCRM, if_neg hcfg]
          | ok l => simp at hfail
  · intro cfg stats active today nowIso wr db hcfg
    simp [syncUchat, if_neg hcfg]

/-- Witness for c9_sync_error_handling: a missing PerfexCRM configuration
returns the config error and leaves the empty database empty. -/
theorem c9_sync_error_handling_witness :
    ((⟨"", "key"⟩ : ApiConfig).apiUrl = "" ∨ (⟨"", "key"⟩ : ApiConfig).apiKey = "") ∧
    syncPerfexCRM ⟨"", "key"⟩ pfGood "2025-01-01" "t1" wrAll dbEmpty =
      (⟨false, "perfexcrm", some "PerfexCRM API configuration is missing"⟩,
        dbEmpty, []) :=
  ⟨Or.inl rfl,
    c9_sync_error_handling.1 ⟨"", "key"⟩ pfGood "2025-01-01" "t1" wrAll dbEmpty
      (Or.inl rfl)⟩

/-- C9 counterexample: a run in which every database write round trip fails
(the upstream fetches succeed) still reports success = true; all five write
requests were issued, none was applied, and the database is unchanged, so a
failing step does not produce success = false. -/
theorem c9_write_failure_ignored_cex :
    (syncPerfexCRM cfgGood pfGood "2025-01-01" "t1" wrNone dbEmpty).1 =
      ⟨true, "perfexcrm", none⟩ ∧
    (syncPerfexCRM cfgGood pfGood "2025-01-01" "t1" wrNone dbEmpty).2.1 = dbEmpty ∧
    (syncPerfexCRM cfgGood pfGood "2025-01-01" "t1" wrNone dbEmpty).2.2.length = 5 := by
  decide

/-! ## C10: getChats is a stub and the chats/total row is always zero -/

/-- C10: UchatClient.getChats returns [] for every input and issues no HTTP
request, and consequently the ("chats", "total") row syncUchat writes always
carries count = 0 and an empty data list. -/
theorem c10_getChats_empty (p : GetChatsParams) (cfg : ApiConfig)
    (stats : UStats) (active : List Chat) (today nowIso : String)
    (wr : Nat → Bool) (db : DB) (hcfg : ¬ (cfg.apiUrl = "" ∨ cfg.apiKey = "")) :
    UchatClient.getChats p = ([], []) ∧
    (syncUchat cfg stats active today nowIso wr db).2.2.get? 2 =
      some (.umetric ⟨"chats", "total", today, .chatsData 0 []⟩) := by
  refine ⟨rfl, ?_⟩
  simp [syncUchat, if_neg hcfg, UchatClient.getChats, List.get?]

/-- Witness for c10_getChats_empty at concrete inputs. -/
theorem c10_getChats_empty_witness :
    ¬ (cfgGood.apiUrl = "" ∨ cfgGood.apiKey = "") ∧
    UchatClient.getChats ⟨some 1000, none, none⟩ = ([], []) ∧
    (syncUchat cfgGood ustatsZero [] "2025-01-01" "t1" wrAll dbEmpty).2.2.get? 2 =
      some (.umetric ⟨"chats", "total", "2025-01-01", .chatsData 0 []⟩) :=
  ⟨by decide,
    (c10_getChats_empty ⟨some 1000, none, none⟩ cfgGood ustatsZero []
      "2025-01-01" "t1" wrAll dbEmpty (by decide)).1,
    (c10_getChats_empty ⟨some 1000, none, none⟩ cfgGood ustatsZero []
      "2025-01-01" "t1" wrAll dbEmpty (by decide)).2⟩
